import Mathlib

/-!
Verification development for the mail-monitoring / Excel-consolidation program
(TypeScript sources: src/gmail/watcher.ts, src/pdf/parser.ts, src/excel/writer.ts,
src/index.ts (main MonitoreoGmail class), src/types.ts).

The program's pure logic is shallowly embedded below:
* JS strings are modelled as Lean `String` / `List Char`;
* the JS regular expressions used by the source are transcribed into a small
  regex AST (`RE`) executed by a backtracking matcher with JS semantics
  (leftmost match, ordered alternation, greedy/lazy quantifiers, one capture
  group, word boundaries, anchors, lookahead);
* numbers stored in the ledger are modelled as `ℚ` (JS `parseFloat` on the
  inputs of interest produces finite decimals; non-finite values such as
  `Infinity` are outside the model and treated as "no numeric parse");
* the Excel worksheet is modelled as a list of data rows (the header row and
  visual styling are presentation-only and carry no logic);
* effectful collaborators (Gmail API, pdf-parse, file system) are modelled as
  explicit environments supplying their results.
-/

set_option maxHeartbeats 4000000
set_option maxRecDepth 100000

/-! ## Characters

Character classes as used by the source's regexes.  The source's regexes are
compiled without the `u` flag, so `\w` and `\b` are ASCII-only; `\s` matches
the usual whitespace characters.  `toLowerCase`/`toUpperCase` are modelled on
the alphabet actually reachable in this program (ASCII letters plus the
Spanish accented letters appearing in the source's patterns). -/

def isDigitC (c : Char) : Bool := '0' ≤ c && c ≤ '9'

def isWsC (c : Char) : Bool :=
  c = ' ' || c = '\t' || c = '\n' || c = '\r' ||
  c = '\x0b' || c = '\x0c' || c.toNat = 160  -- 160 = no-break space

def isUpperAZ (c : Char) : Bool := 'A' ≤ c && c ≤ 'Z'

def isLowerAZ (c : Char) : Bool := 'a' ≤ c && c ≤ 'z'

/-- JS `\w` (no `u` flag): `[A-Za-z0-9_]`. -/
def isWordC (c : Char) : Bool := isUpperAZ c || isLowerAZ c || isDigitC c || c = '_'

/-- Lowercasing for the alphabet used by this program (models
`String.prototype.toLowerCase` on that alphabet). -/
def lowerChar (c : Char) : Char :=
  if isUpperAZ c then Char.ofNat (c.toNat + 32)
  else if c = 'Á' then 'á' else if c = 'É' then 'é'
  else if c = 'Í' then 'í' else if c = 'Ó' then 'ó'
  else if c = 'Ú' then 'ú' else if c = 'Ñ' then 'ñ'
  else if c = 'Ü' then 'ü' else c

/-- Uppercasing for the alphabet used by this program (models
`String.prototype.toUpperCase` on that alphabet). -/
def upperChar (c : Char) : Char :=
  if isLowerAZ c then Char.ofNat (c.toNat - 32)
  else if c = 'á' then 'Á' else if c = 'é' then 'É'
  else if c = 'í' then 'Í' else if c = 'ó' then 'Ó'
  else if c = 'ú' then 'Ú' else if c = 'ñ' then 'Ñ'
  else if c = 'ü' then 'Ü' else c

/-! ## List-of-characters string helpers (JS semantics) -/

/-- Models `String.prototype.trim` (strip whitespace at both ends). -/
def trimChars (cs : List Char) : List Char :=
  ((cs.dropWhile isWsC).reverse.dropWhile isWsC).reverse

/-- Substring containment, models `String.prototype.includes`. -/
def containsSub (hay needle : List Char) : Bool :=
  let rec go : List Char → Bool
    | [] => needle.isPrefixOf []
    | c :: rest => needle.isPrefixOf (c :: rest) || go rest
  go hay

/-- Models `text.split('\n')` (JS: `"".split('\n') = [""]`,
`"a\n".split('\n') = ["a", ""]`). -/
def splitLines (cs : List Char) : List (List Char) :=
  match cs with
  | [] => [[]]
  | c :: rest =>
    match splitLines rest with
    | [] => [[]]  -- unreachable: splitLines never returns []
    | l :: ls => if c = '\n' then [] :: l :: ls else (c :: l) :: ls

def strTrim (s : String) : String := String.mk (trimChars s.data)

def strUpper (s : String) : String := String.mk (s.data.map upperChar)

def strLower (s : String) : String := String.mk (s.data.map lowerChar)

/-! ## A small regex engine with JavaScript matching semantics

Each regex literal of the source is transcribed into this AST; the matcher
implements the ECMAScript backtracking semantics needed by those patterns:
ordered alternation, greedy `*`/`+`/`?`, lazy `+?`, one capture group,
`\b`, `^`/`$` (with and without the `m` flag), and lookahead `(?=...)`.
`fuel` bounds the number of engine steps; every concrete evaluation in this
file stays far below the supplied fuel. -/

inductive RE where
  | eps : RE
  | cls : (Char → Bool) → RE
  | seq : RE → RE → RE
  | alt : RE → RE → RE
  | star : RE → RE          -- greedy `*`
  | lazyStar : RE → RE      -- lazy `*?`
  | opt : RE → RE           -- greedy `?`
  | look : RE → RE          -- lookahead `(?= ... )`
  | wb : RE                 -- `\b`
  | bol : Bool → RE         -- `^` (argument: multiline flag)
  | eol : Bool → RE         -- `$` (argument: multiline flag)
  | grp : RE → RE           -- the capture group `( ... )`

/-- `\b`: word/non-word boundary (ASCII `\w`, as in a non-`u` JS regex). -/
def wordBoundary (s : List Char) (i : Nat) : Bool :=
  let before := match s.get? (i - 1) with
    | some c => i ≠ 0 && isWordC c
    | none => false
  let after := match s.get? i with
    | some c => isWordC c
    | none => false
  before != after

def atBol (s : List Char) (i : Nat) (ml : Bool) : Bool :=
  i = 0 || (ml && (match s.get? (i - 1) with | some c => c = '\n' | none => false))

def atEol (s : List Char) (i : Nat) (ml : Bool) : Bool :=
  i = s.length || (ml && (match s.get? i with | some c => c = '\n' | none => false))

/-- Backtracking matcher in continuation-passing style.  The continuation
receives the position after the current node and the capture-group bounds
recorded so far; the final result is the end position of the whole match plus
the capture bounds. -/
def reRun (s : List Char) :
    Nat → RE → Nat → Option (Nat × Nat) →
    (Nat → Option (Nat × Nat) → Option (Nat × Option (Nat × Nat))) →
    Option (Nat × Option (Nat × Nat))
  | 0, _, _, _, _ => none
  | fuel + 1, re, i, cap, k =>
    match re with
    | .eps => k i cap
    | .cls p =>
      match s.get? i with
      | some c => if p c then k (i + 1) cap else none
      | none => none
    | .seq a b => reRun s fuel a i cap (fun j c => reRun s fuel b j c k)
    | .alt a b =>
      (reRun s fuel a i cap k).orElse (fun _ => reRun s fuel b i cap k)
    | .star r =>
      (reRun s fuel r i cap (fun j c =>
        if j = i then none else reRun s fuel (.star r) j c k)).orElse
        (fun _ => k i cap)
    | .lazyStar r =>
      (k i cap).orElse (fun _ =>
        reRun s fuel r i cap (fun j c =>
          if j = i then none else reRun s fuel (.lazyStar r) j c k))
    | .opt r => (reRun s fuel r i cap k).orElse (fun _ => k i cap)
    | .look r =>
      match reRun s fuel r i cap (fun j c => some (j, c)) with
      | some _ => k i cap
      | none => none
    | .wb => if wordBoundary s i then k i cap else none
    | .bol ml => if atBol s i ml then k i cap else none
    | .eol ml => if atEol s i ml then k i cap else none
    | .grp r => reRun s fuel r i cap (fun j _ => k j (some (i, j)))

/-- Engine fuel: generous bound on backtracking steps for the inputs this
file evaluates (the matcher answers `none` if it were ever exhausted). -/
def engineFuel (s : List Char) : Nat := (s.length + 4) * (s.length + 4) * 128 + 65536

/-- Leftmost match, inner loop: try each start offset from `i` upward, as the
JS engine does, and return `(start, end, captureBounds)` of the first
success.  The second argument counts the remaining start offsets (structural
fuel, supplied as `s.length + 1` at the top). -/
def reScanFrom (re : RE) (s : List Char) : Nat → Nat → Option (Nat × Nat × Option (Nat × Nat))
  | _, 0 => none
  | i, fuel + 1 =>
    match reRun s (engineFuel s) re i none (fun j cap => some (j, cap)) with
    | some (j, cap) => some (i, j, cap)
    | none => if i < s.length then reScanFrom re s (i + 1) fuel else none

/-- Leftmost match of `re` in `s` (JS `string.match(re)` without `g` flag). -/
def reScan (re : RE) (s : List Char) : Option (Nat × Nat × Option (Nat × Nat)) :=
  reScanFrom re s 0 (s.length + 1)

/-- `match[0]` of a successful JS `string.match(re)` (whole matched text). -/
def reMatch0 (re : RE) (s : List Char) : Option (List Char) :=
  (reScan re s).map (fun r => (s.drop r.1).take (r.2.1 - r.1))

/-- `match[1]` of a successful JS `string.match(re)` (capture-group text). -/
def reMatch1 (re : RE) (s : List Char) : Option (List Char) :=
  match reScan re s with
  | some (_, _, some (a, b)) => some ((s.drop a).take (b - a))
  | _ => none

/-! ### Regex AST builders -/

def reChr (c : Char) : RE := .cls (fun x => x = c)

/-- Case-insensitive literal character (for regexes with the `i` flag). -/
def reChrCI (c : Char) : RE := .cls (fun x => lowerChar x = lowerChar c)

def reStr (t : String) : RE := t.data.foldr (fun c r => .seq (reChr c) r) .eps

def reStrCI (t : String) : RE := t.data.foldr (fun c r => .seq (reChrCI c) r) .eps

def reAlts (l : List RE) : RE :=
  match l with
  | [] => .eps
  | [r] => r
  | r :: rs => .alt r (reAlts rs)

def reSeqs (l : List RE) : RE :=
  match l with
  | [] => .eps
  | [r] => r
  | r :: rs => .seq r (reSeqs rs)

/-- Greedy `+`. -/
def rePlus (r : RE) : RE := .seq r (.star r)

/-- Lazy `+?`. -/
def reLazyPlus (r : RE) : RE := .seq r (.lazyStar r)

/-- JS `.` (without `s` flag): any char except line terminators. -/
def reDot : RE := .cls (fun c => c ≠ '\n' && c ≠ '\r')

def wsStar : RE := .star (.cls isWsC)

def wsPlus : RE := rePlus (.cls isWsC)

/-! ## Transcriptions of the source's regex literals

### `PDFParser.REGEX_PATTERNS` (src/pdf/parser.ts lines 6-19)
(`companyNameAlt` is declared in the source but never used, so it is not
modelled.) -/

/-- `[A-Z]{3,}` : three or more uppercase letters. -/
def upperWord3 : RE := reSeqs [.cls isUpperAZ, .cls isUpperAZ, rePlus (.cls isUpperAZ)]

/-- `companyName: /^\s*([A-Z]{3,}(?:\s+[A-Z]{3,})*)\s*$/m` -/
def companyNameRe : RE :=
  reSeqs [.bol true, wsStar,
    .grp (.seq upperWord3 (.star (.seq wsPlus upperWord3))),
    wsStar, .eol true]

/-- `knownCompanies: /(CAZAN|OPTIMAL|OFFSHORE|CORPORATIVO|EMPRESA|COMPAÑIA|SERVICIOS)/i` -/
def knownCompaniesRe : RE :=
  .grp (reAlts [reStrCI "CAZAN", reStrCI "OPTIMAL", reStrCI "OFFSHORE",
    reStrCI "CORPORATIVO", reStrCI "EMPRESA", reStrCI "COMPAÑIA", reStrCI "SERVICIOS"])

/-- `specificCompanies: /\b(CAZAN|OPTIMAL)\b/i` -/
def specificCompaniesRe : RE :=
  reSeqs [.wb, .grp (.alt (reStrCI "CAZAN") (reStrCI "OPTIMAL")), .wb]

/-- `(?:SA\s+DE\s+CV|S\.A\.|EMPRESARIAL|CORPORATION|CORP|INC|LLC)` under the
`i` flag (as inside `fullCompanyName`). -/
def legalSuffixCI : RE :=
  reAlts [reSeqs [reStrCI "SA", wsPlus, reStrCI "DE", wsPlus, reStrCI "CV"],
    reStrCI "S.A.", reStrCI "EMPRESARIAL", reStrCI "CORPORATION",
    reStrCI "CORP", reStrCI "INC", reStrCI "LLC"]

/-- The same suffix alternation, case-sensitive (as inside
`companyLinePattern`, which has no `i` flag). -/
def legalSuffixCS : RE :=
  reAlts [reSeqs [reStr "SA", wsPlus, reStr "DE", wsPlus, reStr "CV"],
    reStr "S.A.", reStr "EMPRESARIAL", reStr "CORPORATION",
    reStr "CORP", reStr "INC", reStr "LLC"]

/-- `fullCompanyName: /\b(CAZAN|OPTIMAL)[\s\w]*(?:SA\s+DE\s+CV|S\.A\.|EMPRESARIAL|CORPORATION|CORP|INC|LLC)?/i` -/
def fullCompanyNameRe : RE :=
  reSeqs [.wb, .grp (.alt (reStrCI "CAZAN") (reStrCI "OPTIMAL")),
    .star (.cls (fun c => isWsC c || isWordC c)), .opt legalSuffixCI]

/-- `companyLinePattern: /^\s*([A-Z][A-Z\s]+(?:SA\s+DE\s+CV|S\.A\.|EMPRESARIAL|CORPORATION|CORP|INC|LLC)?)\s*$/` -/
def companyLinePatternRe : RE :=
  reSeqs [.bol false, wsStar,
    .grp (reSeqs [.cls isUpperAZ,
      rePlus (.cls (fun c => isUpperAZ c || isWsC c)), .opt legalSuffixCS]),
    wsStar, .eol false]

/-! ### `PDFParser.extractAmountFromSubject` patterns (lines 119-124) -/

/-- `[\d,]+(?:\.\d{2})?` : the shared numeric core of all four patterns. -/
def numCoreRe : RE :=
  .seq (rePlus (.cls (fun c => isDigitC c || c = ',')))
    (.opt (reSeqs [reChr '.', .cls isDigitC, .cls isDigitC]))

/-- `/\$\s*([\d,]+(?:\.\d{2})?)/` -/
def amountRe1 : RE := reSeqs [reChr '$', wsStar, .grp numCoreRe]

/-- `/([\d,]+(?:\.\d{2})?)\s*(?:pesos|usd|dolares|dólares)/i` -/
def amountRe2 : RE := reSeqs [.grp numCoreRe, wsStar,
  reAlts [reStrCI "pesos", reStrCI "usd", reStrCI "dolares", reStrCI "dólares"]]

/-- `/(?:monto|cantidad|total|valor)\s*:?\s*\$?\s*([\d,]+(?:\.\d{2})?)/i` -/
def amountRe3 : RE := reSeqs [
  reAlts [reStrCI "monto", reStrCI "cantidad", reStrCI "total", reStrCI "valor"],
  wsStar, .opt (reChr ':'), wsStar, .opt (reChr '$'), wsStar, .grp numCoreRe]

/-- Pattern 4 of the source: the numeric core, then `\s*`, then a literal
hyphen (source text: slash, `([\d,]+(?:\.\d{2})?)\s*-`, slash). -/
def amountRe4 : RE := reSeqs [.grp numCoreRe, wsStar, reChr '-']

/-! ### `PDFParser.extractCityFromSubject` patterns (lines 138-142, 152) -/

def isAccentLower (c : Char) : Bool :=
  c = 'á' || c = 'é' || c = 'í' || c = 'ó' || c = 'ú'

def isAccentUpper (c : Char) : Bool :=
  c = 'Á' || c = 'É' || c = 'Í' || c = 'Ó' || c = 'Ú'

/-- `[a-zA-ZñÑáéíóúÁÉÍÓÚ\s]` -/
def cityLetterWs (c : Char) : Bool :=
  isLowerAZ c || isUpperAZ c || c = 'ñ' || c = 'Ñ' ||
  isAccentLower c || isAccentUpper c || isWsC c

/-- `/(?:ciudad|city|lugar|ubicación|ubicacion)\s*:?\s*([a-zA-ZñÑáéíóúÁÉÍÓÚ\s]+?)(?:\s*-|\s*\$|$)/i` -/
def cityRe1 : RE := reSeqs [
  reAlts [reStrCI "ciudad", reStrCI "city", reStrCI "lugar",
    reStrCI "ubicación", reStrCI "ubicacion"],
  wsStar, .opt (reChr ':'), wsStar,
  .grp (reLazyPlus (.cls cityLetterWs)),
  reAlts [.seq wsStar (reChr '-'), .seq wsStar (reChr '$'), .eol false]]

/-- `[A-ZÁÉÍÓÚÑ]` -/
def upperEsp : RE := .cls (fun c => isUpperAZ c || isAccentUpper c || c = 'Ñ')

/-- `[a-záéíóúñ]` -/
def lowerEsp : RE := .cls (fun c => isLowerAZ c || isAccentLower c || c = 'ñ')

/-- `/\b([A-ZÁÉÍÓÚÑ][a-záéíóúñ]+(?:\s+[A-ZÁÉÍÓÚÑ][a-záéíóúñ]+)*)\b(?=\s*\$|\s*-|$)/` -/
def cityRe2 : RE := reSeqs [.wb,
  .grp (reSeqs [upperEsp, rePlus lowerEsp,
    .star (reSeqs [wsPlus, upperEsp, rePlus lowerEsp])]),
  .wb, .look (reAlts [.seq wsStar (reChr '$'), .seq wsStar (reChr '-'), .eol false])]

/-- `/\b(TABASCO|CANCUN|CANCÚN|PLAYA|CARMEN|CABOS|COZUMEL|MÉRIDA|MERIDA|GUADALAJARA|MONTERREY|TIJUANA|PUEBLA|QUERETARO|QUERÉTARO|VERACRUZ|ACAPULCO|MAZATLÁN|MAZATLAN|PUERTO\s+VALLARTA|VALLARTA)\b/i` -/
def cityRe3 : RE := reSeqs [.wb,
  .grp (reAlts [reStrCI "TABASCO", reStrCI "CANCUN", reStrCI "CANCÚN",
    reStrCI "PLAYA", reStrCI "CARMEN", reStrCI "CABOS", reStrCI "COZUMEL",
    reStrCI "MÉRIDA", reStrCI "MERIDA", reStrCI "GUADALAJARA",
    reStrCI "MONTERREY", reStrCI "TIJUANA", reStrCI "PUEBLA",
    reStrCI "QUERETARO", reStrCI "QUERÉTARO", reStrCI "VERACRUZ",
    reStrCI "ACAPULCO", reStrCI "MAZATLÁN", reStrCI "MAZATLAN",
    reSeqs [reStrCI "PUERTO", wsPlus, reStrCI "VALLARTA"],
    reStrCI "VALLARTA"]),
  .wb]

/-- `/\b(?:RECURSO|los|las)\s+([a-zA-ZñÑáéíóúÁÉÍÓÚ\s]+?)\s*\$/i` -/
def locationRe : RE := reSeqs [.wb,
  reAlts [reStrCI "RECURSO", reStrCI "los", reStrCI "las"],
  wsPlus, .grp (reLazyPlus (.cls cityLetterWs)), wsStar, reChr '$']

/-! ### `MonitoreoGmail.extractClientName` patterns (src/index.ts lines 198-210) -/

/-- `/^(.+?)\s*<.*>$/` -/
def clientRe1 : RE := reSeqs [.bol false, .grp (reLazyPlus reDot), wsStar,
  reChr '<', .star reDot, reChr '>', .eol false]

/-- `/<(.+?)@/` -/
def clientRe2 : RE := reSeqs [reChr '<', .grp (reLazyPlus reDot), reChr '@']

/-- `/^(?:solicitud|pedido|orden)\s+(?:de\s+)?(.+?)(?:\s+-|$)/i` -/
def clientRe3 : RE := reSeqs [.bol false,
  reAlts [reStrCI "solicitud", reStrCI "pedido", reStrCI "orden"],
  wsPlus, .opt (.seq (reStrCI "de") wsPlus),
  .grp (reLazyPlus reDot), reAlts [.seq wsPlus (reChr '-'), .eol false]]

/-! ## PDFParser extraction functions (src/pdf/parser.ts) -/

/-- Scan a list of lines with a per-line matcher and return the first hit
(models the `for` loops of `extractCompanyName`: first matching line wins). -/
def firstSomeLines (f : List Char → Option String) : List (List Char) → Option String
  | [] => none
  | l :: ls =>
    match f l with
    | some r => some r
    | none => firstSomeLines f ls

/-- First-priority loop of `extractCompanyName` (lines 50-58):
`fullCompanyName` match, returning `fullMatch[0].trim().toUpperCase()`. -/
def strategyFull (lines : List (List Char)) : Option String :=
  firstSomeLines (fun line =>
    (reMatch0 fullCompanyNameRe line).map
      (fun m => strUpper (String.mk (trimChars m)))) lines

/-- Second-priority loop (lines 61-69): `companyLinePattern` match with
`lineMatch[1].length >= 10`, returning `lineMatch[1].trim().toUpperCase()`. -/
def strategyLinePat (lines : List (List Char)) : Option String :=
  firstSomeLines (fun line =>
    match reMatch1 companyLinePatternRe line with
    | some g => if 10 ≤ g.length then some (strUpper (String.mk (trimChars g))) else none
    | none => none) lines

/-- Third-priority loop (lines 72-80): `specificCompanies` match, returning
`specificMatch[1].toUpperCase()`. -/
def strategySpecific (lines : List (List Char)) : Option String :=
  firstSomeLines (fun line =>
    (reMatch1 specificCompaniesRe line).map (fun g => strUpper (String.mk g))) lines

/-- Fourth loop (lines 83-91): `knownCompanies` match, returning
`knownMatch[1].toUpperCase()`. -/
def strategyKnown (lines : List (List Char)) : Option String :=
  firstSomeLines (fun line =>
    (reMatch1 knownCompaniesRe line).map (fun g => strUpper (String.mk g))) lines

/-- Fifth loop (lines 94-102): on the first `min(5, lines.length)` lines,
trimmed, `companyName` match with `4 <= companyMatch[1].length <= 25`,
returning `companyMatch[1].trim()`. -/
def strategyUpperRun (lines : List (List Char)) : Option String :=
  firstSomeLines (fun line =>
    let t := trimChars line
    match reMatch1 companyNameRe t with
    | some g =>
      if 4 ≤ g.length && g.length ≤ 25 then some (String.mk (trimChars g)) else none
    | none => none) (lines.take 5)

/-- Last resort (lines 105-110): `specificCompanies` over the entire text,
returning `globalMatch[1].toUpperCase()`. -/
def strategyGlobal (text : List Char) : Option String :=
  (reMatch1 specificCompaniesRe text).map (fun g => strUpper (String.mk g))

/-- `PDFParser.extractCompanyName` (lines 38-115): split the text into lines,
keep the first 15, try the strategies in source order, else return the
sentinel `"EMPRESA NO IDENTIFICADA"`. -/
def extractCompanyName (text : String) : String :=
  let lines := (splitLines text.data).take 15
  match strategyFull lines with
  | some r => r
  | none =>
    match strategyLinePat lines with
    | some r => r
    | none =>
      match strategySpecific lines with
      | some r => r
      | none =>
        match strategyKnown lines with
        | some r => r
        | none =>
          match strategyUpperRun lines with
          | some r => r
          | none =>
            match strategyGlobal text.data with
            | some r => r
            | none => "EMPRESA NO IDENTIFICADA"

/-- `PDFParser.extractAmountFromSubject` (lines 117-134): four patterns in
order, first match wins, `match[1].replace(/,/g, '')`; no match gives `""`. -/
def extractAmountFromSubject (subject : String) : String :=
  match reMatch1 amountRe1 subject.data with
  | some g => String.mk (g.filter (fun c => c ≠ ','))
  | none =>
    match reMatch1 amountRe2 subject.data with
    | some g => String.mk (g.filter (fun c => c ≠ ','))
    | none =>
      match reMatch1 amountRe3 subject.data with
      | some g => String.mk (g.filter (fun c => c ≠ ','))
      | none =>
        match reMatch1 amountRe4 subject.data with
        | some g => String.mk (g.filter (fun c => c ≠ ','))
        | none => ""

/-- `PDFParser.extractCityFromSubject` (lines 136-158): three patterns in
order, then the `RECURSO|los|las` pattern, each returning `match[1].trim()`;
no match gives `""`. -/
def extractCityFromSubject (subject : String) : String :=
  match reMatch1 cityRe1 subject.data with
  | some g => String.mk (trimChars g)
  | none =>
    match reMatch1 cityRe2 subject.data with
    | some g => String.mk (trimChars g)
    | none =>
      match reMatch1 cityRe3 subject.data with
      | some g => String.mk (trimChars g)
      | none =>
        match reMatch1 locationRe subject.data with
        | some g => String.mk (trimChars g)
        | none => ""

/-- `SolicitudParsed` (src/types.ts). -/
structure SolicitudParsed where
  cantidad : String
  domicilioEntrega : String
  fechaEntrega : String
  horario : String
  ciudad : String
deriving DecidableEq, Repr

/-- `PDFParser.extractDataFromText` (lines 160-173): only the company name is
extracted from the PDF text (`companyName || 'No especificada'`), the other
fields are constants. -/
def extractDataFromText (text : String) : SolicitudParsed :=
  let companyName := extractCompanyName text
  { cantidad := ""
    domicilioEntrega := if companyName = "" then "No especificada" else companyName
    fechaEntrega := ""
    horario := ""
    ciudad := "" }

/-- `MonitoreoGmail.extractClientName` (src/index.ts lines 196-216): the
sender/subject fallback chain, ending with the raw sender. -/
def extractClientName (sender subject : String) : String :=
  match reMatch1 clientRe1 sender.data with
  | some g => String.mk (trimChars g)
  | none =>
    match reMatch1 clientRe2 sender.data with
    | some g => String.mk (trimChars g)
    | none =>
      match reMatch1 clientRe3 subject.data with
      | some g => String.mk (trimChars g)
      | none => sender

/-! ## ExcelWriter (src/excel/writer.ts) -/

/-- `SolicitudData` (src/types.ts). -/
structure SolicitudData where
  fecha : String
  operador : String
  sucursal : String
  monto : String
  link : String
  messageId : String
deriving DecidableEq, Repr

/-- Natural-number value of a digit string. -/
def digitsToNat (ds : List Char) : Nat :=
  ds.foldl (fun n c => 10 * n + (c.toNat - '0'.toNat)) 0

/-- Model of JS `parseFloat` on finite decimal inputs: skip leading
whitespace, optional sign, digits, optional `.` and fraction digits,
optional exponent; the longest valid prefix wins and trailing junk is
ignored; no digit at all gives `NaN`, modelled as `none`.  The non-finite
`Infinity` literal is not representable in `ℚ` and is also mapped to
`none`. -/
def parseFloatQ (cs0 : List Char) : Option ℚ :=
  let cs1 := cs0.dropWhile isWsC
  let signAndRest : ℤ × List Char :=
    match cs1 with
    | '-' :: r => (-1, r)
    | '+' :: r => (1, r)
    | _ => (1, cs1)
  let sign := signAndRest.1
  let cs2 := signAndRest.2
  let intPart := cs2.takeWhile isDigitC
  let rest := cs2.dropWhile isDigitC
  let fracAndRest : List Char × List Char :=
    match rest with
    | '.' :: r => (r.takeWhile isDigitC, r.dropWhile isDigitC)
    | _ => ([], rest)
  let fracPart := fracAndRest.1
  let rest2 := fracAndRest.2
  if intPart.isEmpty && fracPart.isEmpty then none
  else
    let expVal : ℤ :=
      match rest2 with
      | e :: r =>
        if e = 'e' || e = 'E' then
          let esr : ℤ × List Char :=
            match r with
            | '-' :: rr => (-1, rr)
            | '+' :: rr => (1, rr)
            | _ => (1, r)
          let ds := esr.2.takeWhile isDigitC
          if ds.isEmpty then 0 else esr.1 * (digitsToNat ds : ℤ)
        else 0
      | [] => 0
    -- value = sign · digits(intPart ++ fracPart) · 10^expVal / 10^|fracPart|,
    -- assembled as a single exact rational
    some (mkRat (sign * (digitsToNat (intPart ++ fracPart) : ℤ) * (10 : ℤ) ^ expVal.toNat)
      (10 ^ (fracPart.length + (-expVal).toNat)))

/-- `ExcelWriter.parseAmount` (lines 215-229): `null` for the empty string or
the `'No especificada'` sentinel; otherwise remove `$` and `,`, trim, apply
`parseFloat`, and give `null` on `NaN`. -/
def parseAmount (amountString : String) : Option ℚ :=
  if amountString = "" || amountString = "No especificada" then none
  else parseFloatQ (trimChars (amountString.data.filter (fun c => c ≠ '$' && c ≠ ',')))

/-- The value stored in the MONTO cell: plain text, or a numeric value that
carries the accounting number format set by `appendSolicitud` line 157. -/
inductive MontoCell where
  | text : String → MontoCell
  | currency : ℚ → MontoCell
deriving DecidableEq, Repr

/-- The value stored in the LINK cell (lines 162-169). -/
inductive LinkCell where
  | plain : String → LinkCell
  | hyperlink : (text url : String) → LinkCell
deriving DecidableEq, Repr

/-- One data row of the worksheet (the header row and the visual styling of
`setupHeaders`/`appendSolicitud` carry no logic and are omitted): columns
FECHA, OPERADOR, SUCURSAL, MONTO, LINK, and the hidden MessageId column 6. -/
structure Row where
  fecha : String
  operador : String
  sucursal : String
  monto : MontoCell
  link : LinkCell
  messageId : String
deriving DecidableEq, Repr

/-- The worksheet's data rows, in order. -/
abbrev Ledger := List Row

/-- `ExcelWriter.findExistingRow` (lines 196-213): scan the data rows' hidden
column 6 for the message id, first hit wins. -/
def findExistingRow (ws : Ledger) (messageId : String) : Option Row :=
  ws.find? (fun row => row.messageId == messageId)

/-- The MONTO cell produced by `appendSolicitud` lines 138-159: the cell is
created holding the raw text and overwritten by the parsed numeric value
(with the accounting format) when the guard
`solicitud.monto && solicitud.monto !== 'No especificada'` holds and
`parseAmount` succeeds. -/
def montoCellOf (monto : String) : MontoCell :=
  if monto != "" && monto != "No especificada" then
    match parseAmount monto with
    | some q => .currency q
    | none => .text monto
  else .text monto

/-- The LINK cell produced by lines 162-169: a `'Ver correo'` hyperlink when
the link text is non-empty. -/
def linkCellOf (link : String) : LinkCell :=
  if link != "" then .hyperlink "Ver correo" link else .plain link

/-- The row `appendSolicitud` builds from a `SolicitudData`. -/
def mkRow (s : SolicitudData) : Row :=
  { fecha := s.fecha
    operador := s.operador
    sucursal := s.sucursal
    monto := montoCellOf s.monto
    link := linkCellOf s.link
    messageId := s.messageId }

/-- `ExcelWriter.appendSolicitud` (lines 124-194): if a row with the same
hidden message id already exists, log and return without writing; otherwise
append the formatted row.  (Auto-filter creation, borders and the save to
disk are presentation/persistence effects with no influence on row data.) -/
def appendSolicitud (ws : Ledger) (solicitud : SolicitudData) : Ledger :=
  match findExistingRow ws solicitud.messageId with
  | some _ => ws
  | none => ws ++ [mkRow solicitud]

/-! ## GmailWatcher (src/gmail/watcher.ts) -/

/-- `GmailAttachment` (src/types.ts). -/
structure GmailAttachment where
  filename : String
  mimeType : String
  attachmentId : String
  size : Nat
deriving DecidableEq, Repr

/-- Date of receipt, reduced to what `formatShortDate` reads from the JS
`Date`: `getDate()` and `getMonth()` (0-11). -/
structure DateM where
  day : Nat
  month : Fin 12
deriving DecidableEq, Repr

/-- `ProcessedEmail` (src/types.ts). -/
structure ProcessedEmail where
  messageId : String
  subject : String
  sender : String
  receivedAt : DateM
  attachments : List GmailAttachment
deriving DecidableEq, Repr

/-- The PDF filter in `GmailWatcher.getMessageDetails` (lines 157-162): keep
exactly the attachments whose `mimeType === 'application/pdf'`; the
cover-letter classification (`isCartaAttachment`) computed there is logged
only and excludes nothing. -/
def filterPdfAttachments (atts : List GmailAttachment) : List GmailAttachment :=
  atts.filter (fun att => att.mimeType == "application/pdf")

/-- JS `Number` on a boolean. -/
def boolToInt (b : Bool) : ℤ := if b then 1 else 0

/-- Stable insertion: place `x` before the first element `y` such that
`c x y ≤ 0`.  For a consistent comparator, insertion sort with this rule
computes the unique stable order that ECMAScript's `Array.prototype.sort`
(required stable since ES2019) produces. -/
def insertByComp (c : α → α → ℤ) (x : α) : List α → List α
  | [] => [x]
  | y :: ys => if c x y ≤ 0 then x :: y :: ys else y :: insertByComp c x ys

/-- Stable sort by comparator (models `array.sort(comparator)`). -/
def sortByComp (c : α → α → ℤ) : List α → List α
  | [] => []
  | x :: xs => insertByComp c x (sortByComp c xs)

/-- `a.filename.toLowerCase().includes('carta')` from the sort comparator of
`MonitoreoGmail.processEmail` (src/index.ts lines 138-143). -/
def isCartaFilename (filename : String) : Bool :=
  containsSub (filename.data.map lowerChar) "carta".data

/-- The comparator `Number(aIsCarta) - Number(bIsCarta)` of those lines. -/
def cartaComparator (a b : GmailAttachment) : ℤ :=
  boolToInt (isCartaFilename a.filename) - boolToInt (isCartaFilename b.filename)

/-- `[...email.attachments].sort(comparator)` of `processEmail`. -/
def sortAttachments (atts : List GmailAttachment) : List GmailAttachment :=
  sortByComp cartaComparator atts

/-- Outcome of `GmailWatcher.retryOperation` (lines 281-298). -/
inductive RetryOutcome (E A : Type) where
  | ok : A → RetryOutcome E A
  | opError : E → RetryOutcome E A
  | maxRetriesExceeded : RetryOutcome E A
deriving DecidableEq, Repr

/-- Result of the retry loop, instrumented with the number of operation
invocations and the number of fixed-length delays
(`config.errorHandling.retryDelayMs`) performed. -/
structure RetryResult (E A : Type) where
  outcome : RetryOutcome E A
  calls : Nat
  delays : Nat
deriving DecidableEq, Repr

/-- The `for (let i = 0; i < maxRetries; i++)` loop of `retryOperation`,
where `op n` is the outcome of the `n`-th invocation of the operation.
`i` is the loop counter; `fuel` is `(maxRetries - i).toNat`, the exact
number of remaining iterations, making the recursion structural.  When the
loop exits without returning or throwing, the trailing
`throw new Error('Max retries exceeded')` runs (`maxRetriesExceeded`). -/
def retryLoop (op : Nat → Except E A) (maxRetries : ℤ) :
    Nat → Nat → Nat → Nat → RetryResult E A
  | _, calls, delays, 0 => ⟨.maxRetriesExceeded, calls, delays⟩
  | i, calls, delays, fuel + 1 =>
    if (i : ℤ) < maxRetries then
      match op i with
      | .ok a => ⟨.ok a, calls + 1, delays⟩
      | .error e =>
        if (i : ℤ) = maxRetries - 1 then ⟨.opError e, calls + 1, delays⟩
        else retryLoop op maxRetries (i + 1) (calls + 1) (delays + 1) fuel
    else ⟨.maxRetriesExceeded, calls, delays⟩

/-- `GmailWatcher.retryOperation` (lines 281-298) applied to an operation
whose `n`-th invocation yields `op n`. -/
def retryOperation (op : Nat → Except E A) (maxRetries : ℤ) : RetryResult E A :=
  retryLoop op maxRetries 0 0 0 maxRetries.toNat

/-- What `getMessageDetails` assembles for one message id (headers plus the
PDF-filtered attachment list).  `none` models both a `null` return (no PDF
attachments) and a caught per-message error. -/
structure MessageDetails where
  subject : String
  sender : String
  receivedAt : DateM
  attachments : List GmailAttachment
deriving DecidableEq, Repr

/-- Environment of `GmailWatcher.checkForNewMessages`: the ids returned by
`users.messages.list` and the per-id result of `getMessageDetails`. -/
structure WatcherEnv where
  messageIds : List String
  details : String → Option MessageDetails

/-- `getMessageDetails` sets `messageId` from its argument. -/
def detailsToEmail (id : String) (d : MessageDetails) : ProcessedEmail :=
  { messageId := id
    subject := d.subject
    sender := d.sender
    receivedAt := d.receivedAt
    attachments := d.attachments }

/-- The message loop of `checkForNewMessages` (lines 111-123): skip ids
already in the in-process `processedMessages` set; otherwise fetch the
details and, when a non-null email results, push it and add the id to the
set.  The set is updated here, before the caller performs any download,
extraction or ledger append for the message. -/
def cfnLoop (env : WatcherEnv) :
    List String → List String → List ProcessedEmail →
    List ProcessedEmail × List String
  | [], seen, acc => (acc, seen)
  | id :: rest, seen, acc =>
    if id ∈ seen then cfnLoop env rest seen acc
    else
      match env.details id with
      | some d => cfnLoop env rest (id :: seen) (acc ++ [detailsToEmail id d])
      | none => cfnLoop env rest seen acc

/-- `GmailWatcher.checkForNewMessages`: the returned batch and the updated
in-process seen set. -/
def checkForNewMessages (env : WatcherEnv) (seen : List String) :
    List ProcessedEmail × List String :=
  cfnLoop env env.messageIds seen []

/-! ## MonitoreoGmail pipeline (src/index.ts) -/

def monthsAbbr : List String :=
  ["ene", "feb", "mar", "abr", "may", "jun",
   "jul", "ago", "sep", "oct", "nov", "dic"]

/-- `MonitoreoGmail.formatShortDate` (lines 233-239); the month index of a JS
`Date` is always 0-11, so the `getD` default is unreachable. -/
def formatShortDate (d : DateM) : String :=
  toString d.day ++ "-" ++ monthsAbbr.getD d.month.val ""

/-- `MonitoreoGmail.generateGmailLink` (lines 242-245). -/
def generateGmailLink (messageId : String) : String :=
  "https://mail.google.com/mail/u/1/#inbox/" ++ messageId

/-- The OPERADOR (issuer) computation of `processEmail` lines 164-167:
`parsedData.domicilioEntrega !== 'No especificada' ? parsedData.domicilioEntrega : this.extractClientName(email.sender, email.subject)`. -/
def assembledIssuer (text sender subject : String) : String :=
  let parsed := extractDataFromText text
  if parsed.domicilioEntrega != "No especificada" then parsed.domicilioEntrega
  else extractClientName sender subject

/-- Environment of the per-attachment work in `processEmail`: the composite
of `GmailWatcher.downloadAttachment` and `PDFParser.parsePDF` — for a
(messageId, attachmentId) pair, either the extracted plain text of the PDF
or a thrown error (both steps throw into the same per-attachment catch). -/
structure PipelineEnv where
  fetchText : String → String → Except String String

/-- The per-attachment `try` body of `processEmail` (lines 149-189) together
with its `catch`: on any failure the worksheet is left unchanged and
processing continues with the next attachment.  (`markAsProcessed` only
talks to Gmail, catches its own errors, and does not affect the ledger.) -/
def processAttachment (env : PipelineEnv) (email : ProcessedEmail)
    (ws : Ledger) (att : GmailAttachment) : Ledger :=
  match env.fetchText email.messageId att.attachmentId with
  | .error _ => ws
  | .ok text =>
    let cantidad := extractAmountFromSubject email.subject
    let ciudad := extractCityFromSubject email.subject
    let cliente := assembledIssuer text email.sender email.subject
    let solicitudData : SolicitudData :=
      { fecha := formatShortDate email.receivedAt
        operador := cliente
        sucursal := if ciudad = "" then "No especificada" else ciudad
        monto := if cantidad = "" then "No especificada" else cantidad
        link := generateGmailLink email.messageId
        messageId := email.messageId }
    appendSolicitud ws solicitudData

/-- `MonitoreoGmail.processEmail` (lines 133-194): sort the attachments and
process each in order, each isolated by its own catch. -/
def processEmail (env : PipelineEnv) (email : ProcessedEmail) (ws : Ledger) : Ledger :=
  (sortAttachments email.attachments).foldl (processAttachment env email) ws

/-- The per-email loop of `MonitoreoGmail.checkAndProcessEmails`
(lines 121-127): each email runs inside its own try/catch, so the batch
always runs to completion. -/
def processBatch (env : PipelineEnv) (emails : List ProcessedEmail) (ws : Ledger) : Ledger :=
  emails.foldl (fun acc e => processEmail env e acc) ws

/-- Concrete message used by the batch-isolation scenario (§8 of the spec):
one PDF attachment, minimal headers. -/
def sampleEmail (id : String) : ProcessedEmail :=
  { messageId := id
    subject := "s"
    sender := "x"
    receivedAt := ⟨1, 0⟩
    attachments := [⟨"a.pdf", "application/pdf", "A", 1⟩] }

/-- Environment in which message `m2`'s download fails and every other
download yields a PDF whose extracted text is `"CAZAN"`. -/
def sampleEnv : PipelineEnv :=
  ⟨fun mid _ => if mid = "m2" then .error "download failed" else .ok "CAZAN"⟩

/-! # Theorems -/

/-! ## Helper lemmas for the stable comparator sort -/

theorem insertByComp_key_false {α : Type} (key : α → Bool) (x : α)
    (A B : List α) (hA : ∀ a ∈ A, key a = false) (hB : ∀ b ∈ B, key b = true)
    (hx : key x = false) :
    insertByComp (fun a b => boolToInt (key a) - boolToInt (key b)) x (A ++ B) =
      x :: (A ++ B) := by
  cases A with
  | nil =>
    cases B with
    | nil => rfl
    | cons b B2 =>
      have hb := hB b (by simp)
      simp [insertByComp, boolToInt, hx, hb]
  | cons a A2 =>
    have ha := hA a (by simp)
    simp [insertByComp, boolToInt, hx, ha]

theorem insertByComp_key_true {α : Type} (key : α → Bool) (x : α)
    (A B : List α) (hA : ∀ a ∈ A, key a = false) (hB : ∀ b ∈ B, key b = true)
    (hx : key x = true) :
    insertByComp (fun a b => boolToInt (key a) - boolToInt (key b)) x (A ++ B) =
      A ++ x :: B := by
  induction A with
  | nil =>
    cases B with
    | nil => rfl
    | cons b B2 =>
      have hb := hB b (by simp)
      simp [insertByComp, boolToInt, hx, hb]
  | cons a A2 ih =>
    have ha := hA a (by simp)
    simp only [List.cons_append, insertByComp, boolToInt, hx, ha]
    norm_num
    exact ih (fun a2 h => hA a2 (by simp [h]))

/-- Sorting with the comparator `Number(key a) - Number(key b)` (a stable
boolean-key sort) is exactly: the elements whose key is `false`, in their
original order, followed by those whose key is `true`, in their original
order. -/
theorem sortByComp_partition {α : Type} (key : α → Bool) (l : List α) :
    sortByComp (fun a b => boolToInt (key a) - boolToInt (key b)) l =
      l.filter (fun a => !key a) ++ l.filter key := by
  induction l with
  | nil => rfl
  | cons x xs ih =>
    have hA : ∀ a ∈ xs.filter (fun a => !key a), key a = false := by
      intro a ha
      have := (List.mem_filter.mp ha).2
      simpa using this
    have hB : ∀ b ∈ xs.filter key, key b = true := by
      intro b hb
      exact (List.mem_filter.mp hb).2
    cases hx : key x with
    | false =>
      simp only [sortByComp, ih]
      rw [insertByComp_key_false key x _ _ hA hB hx]
      simp [List.filter, hx]
    | true =>
      simp only [sortByComp, ih]
      rw [insertByComp_key_true key x _ _ hA hB hx]
      simp [List.filter, hx]

/-- Claim C4: for every attachment list, the selector keeps exactly the
attachments whose mimeType is `"application/pdf"` and orders them so that
every attachment whose filename (case-insensitively) does not contain
`"carta"` precedes every one that does, preserving relative order among ties
(stable partition); on the concrete input
`["CARTA.pdf" (pdf), "FACTURA.pdf" (pdf), "note.txt" (non-pdf)]` the result
is `["FACTURA.pdf", "CARTA.pdf"]`. -/
theorem C4_attachment_selector :
    (∀ atts : List GmailAttachment,
      filterPdfAttachments atts =
        atts.filter (fun a => a.mimeType == "application/pdf") ∧
      sortAttachments (filterPdfAttachments atts) =
        (filterPdfAttachments atts).filter (fun a => !isCartaFilename a.filename) ++
          (filterPdfAttachments atts).filter (fun a => isCartaFilename a.filename)) ∧
    (sortAttachments (filterPdfAttachments
        [⟨"CARTA.pdf", "application/pdf", "a1", 1⟩,
         ⟨"FACTURA.pdf", "application/pdf", "a2", 2⟩,
         ⟨"note.txt", "text/plain", "a3", 3⟩])).map GmailAttachment.filename =
      ["FACTURA.pdf", "CARTA.pdf"] := by
  constructor
  · intro atts
    refine ⟨rfl, ?_⟩
    exact sortByComp_partition (fun a : GmailAttachment => isCartaFilename a.filename) _
  · decide

/-! ## Helper lemmas for the idempotent ledger append -/

theorem appendSolicitud_of_mem (ws : Ledger) (s : SolicitudData)
    (h : ∃ row ∈ ws, row.messageId = s.messageId) :
    appendSolicitud ws s = ws := by
  have hsome : (findExistingRow ws s.messageId).isSome := by
    rw [findExistingRow, List.find?_isSome]
    obtain ⟨r, hr, he⟩ := h
    exact ⟨r, hr, by simp [he]⟩
  unfold appendSolicitud
  cases hfind : findExistingRow ws s.messageId with
  | some r => rfl
  | none => rw [hfind] at hsome; simp at hsome

theorem appendSolicitud_count_le_one (ws : Ledger) (s : SolicitudData) (id : String)
    (h : (ws.filter (fun r => r.messageId == id)).length ≤ 1) :
    ((appendSolicitud ws s).filter (fun r => r.messageId == id)).length ≤ 1 := by
  unfold appendSolicitud
  cases hfind : findExistingRow ws s.messageId with
  | some r => exact h
  | none =>
    rw [List.filter_append, List.length_append]
    by_cases hid : (mkRow s).messageId == id
    · have hnone := List.find?_eq_none.mp hfind
      have hws : ws.filter (fun r => r.messageId == id) = [] := by
        rw [List.filter_eq_nil_iff]
        intro r hr
        have hne := hnone r hr
        have : s.messageId = id := by
          have : (mkRow s).messageId = id := by simpa using hid
          simpa [mkRow] using this
        simp [this] at hne ⊢
        exact hne
      simp [hws, List.filter, hid]
    · simp [List.filter, hid]
      omega

theorem foldl_appendSolicitud_count (ss : List SolicitudData) (ws : Ledger) (id : String)
    (h : (ws.filter (fun r => r.messageId == id)).length ≤ 1) :
    ((ss.foldl appendSolicitud ws).filter (fun r => r.messageId == id)).length ≤ 1 := by
  induction ss generalizing ws with
  | nil => exact h
  | cons s ss ih => exact ih _ (appendSolicitud_count_le_one ws s id h)

/-- Claim C1: if a row with the record's messageId already exists, the append
performs no write (the ledger is returned unchanged); after any sequence of
appends starting from the empty ledger at most one row per messageId exists;
and appending the same record twice yields exactly one row for it. -/
theorem C1_ledger_idempotent_append :
    (∀ (ws : Ledger) (s : SolicitudData),
       (∃ row ∈ ws, row.messageId = s.messageId) → appendSolicitud ws s = ws) ∧
    (∀ (ss : List SolicitudData) (id : String),
       ((ss.foldl appendSolicitud []).filter (fun r => r.messageId == id)).length ≤ 1) ∧
    (∀ s : SolicitudData,
       ((appendSolicitud (appendSolicitud [] s) s).filter
          (fun r => r.messageId == s.messageId)).length = 1) := by
  refine ⟨appendSolicitud_of_mem, ?_, ?_⟩
  · intro ss id
    exact foldl_appendSolicitud_count ss [] id (by simp)
  · intro s
    have h1 : appendSolicitud [] s = [mkRow s] := rfl
    have h2 : appendSolicitud [mkRow s] s = [mkRow s] :=
      appendSolicitud_of_mem _ _ ⟨mkRow s, by simp, rfl⟩
    rw [h1, h2]
    simp [List.filter, mkRow]

/-- Witness for C1: a duplicate append on a concrete one-row ledger is a
no-op. -/
theorem C1_ledger_idempotent_append_witness :
    appendSolicitud [mkRow ⟨"f", "o", "s", "m", "l", "id1"⟩]
        ⟨"f", "o", "s", "m", "l", "id1"⟩ =
      [mkRow ⟨"f", "o", "s", "m", "l", "id1"⟩] :=
  C1_ledger_idempotent_append.1 _ _ ⟨mkRow ⟨"f", "o", "s", "m", "l", "id1"⟩, by simp, rfl⟩

/-- Claim C6: the ledger append never fails because of the amount text — the
append is total; a parseable amount (currency symbols/commas stripped) is
stored as a numeric cell with the accounting (currency) format, and an
unparseable amount or the `'No especificada'` sentinel is stored as the
opaque original text; in particular `"$2,300.50"` is stored as the number
`2300.50` and `"No especificada"` as text. -/
theorem C6_amount_formatting :
    (∀ (ws : Ledger) (s : SolicitudData),
       findExistingRow ws s.messageId = none →
       appendSolicitud ws s = ws ++ [mkRow s]) ∧
    (∀ (s : SolicitudData) (q : ℚ),
       parseAmount s.monto = some q → (mkRow s).monto = .currency q) ∧
    (∀ s : SolicitudData,
       parseAmount s.monto = none → (mkRow s).monto = .text s.monto) ∧
    parseAmount "$2,300.50" = some (2300.50 : ℚ) ∧
    montoCellOf "$2,300.50" = .currency (2300.50 : ℚ) ∧
    montoCellOf "No especificada" = .text "No especificada" := by
  have hlit : (2300.50 : ℚ) = mkRat 230050 (10 ^ 2) := Rat.ofScientific_true_def
  refine ⟨?_, ?_, ?_, by rw [hlit]; decide, by rw [hlit]; decide, by decide⟩
  · intro ws s hfind
    unfold appendSolicitud
    rw [hfind]
  · intro s q h
    have h1 : s.monto ≠ "" := by
      intro hc
      rw [parseAmount] at h
      simp [hc] at h
    have h2 : s.monto ≠ "No especificada" := by
      intro hc
      rw [parseAmount] at h
      simp [hc] at h
    simp [mkRow, montoCellOf, h1, h2, h]
  · intro s h
    by_cases h1 : s.monto = ""
    · simp [mkRow, montoCellOf, h1]
    · by_cases h2 : s.monto = "No especificada"
      · simp [mkRow, montoCellOf, h2]
      · simp [mkRow, montoCellOf, h1, h2, h]

/-- Witness for C6: the concrete record with amount `"$2,300.50"` produces a
currency-formatted numeric cell. -/
theorem C6_amount_formatting_witness :
    (mkRow ⟨"f", "o", "s", "$2,300.50", "l", "id1"⟩).monto =
      .currency (2300.50 : ℚ) :=
  C6_amount_formatting.2.1 ⟨"f", "o", "s", "$2,300.50", "l", "id1"⟩
    (2300.50 : ℚ)
    (by rw [show (2300.50 : ℚ) = mkRat 230050 (10 ^ 2) from Rat.ofScientific_true_def]
        decide)

/-! ## Helper lemmas for the retry loop -/

theorem retryLoop_ok_at {E A : Type} (op : Nat → Except E A) (N : ℤ) (a : A) :
    ∀ (d i calls delays : Nat),
      ((i + d : Nat) : ℤ) < N →
      (∀ j : Nat, i ≤ j → j < i + d → ∃ e, op j = .error e) →
      op (i + d) = .ok a →
      retryLoop op N i calls delays (N - i).toNat =
        ⟨.ok a, calls + d + 1, delays + d⟩ := by
  intro d
  induction d with
  | zero =>
    intro i calls delays hlt hfail hok
    have hi : (i : ℤ) < N := by simpa using hlt
    obtain ⟨f, hf⟩ : ∃ f, (N - i).toNat = f + 1 := ⟨(N - i).toNat - 1, by omega⟩
    rw [hf]
    simp only [retryLoop, if_pos hi]
    rw [show i + 0 = i from rfl] at hok
    rw [hok]
    rfl
  | succ d ih =>
    intro i calls delays hlt hfail hok
    have hi : (i : ℤ) < N := by push_cast at hlt; omega
    have hne : ¬((i : ℤ) = N - 1) := by push_cast at hlt; omega
    obtain ⟨e, he⟩ := hfail i le_rfl (by omega)
    obtain ⟨f, hf⟩ : ∃ f, (N - i).toNat = f + 1 := ⟨(N - i).toNat - 1, by omega⟩
    rw [hf]
    simp only [retryLoop, if_pos hi]
    rw [he]
    simp only [if_neg hne]
    have harg : f = (N - ((i + 1 : Nat) : ℤ)).toNat := by push_cast; omega
    rw [harg]
    have hrec := ih (i + 1) (calls + 1) (delays + 1)
      (by push_cast; push_cast at hlt; omega)
      (fun j h1 h2 => hfail j (by omega) (by omega))
      (by rw [show i + 1 + d = i + (d + 1) from by omega]; exact hok)
    rw [hrec, show calls + 1 + d + 1 = calls + (d + 1) + 1 from by omega,
      show delays + 1 + d = delays + (d + 1) from by omega]

theorem retryLoop_err_at {E A : Type} (op : Nat → Except E A) (N : ℤ) (e : E) :
    ∀ (d i calls delays : Nat),
      ((i + d : Nat) : ℤ) = N - 1 →
      (∀ j : Nat, i ≤ j → j < i + d → ∃ e2, op j = .error e2) →
      op (i + d) = .error e →
      retryLoop op N i calls delays (N - i).toNat =
        ⟨.opError e, calls + d + 1, delays + d⟩ := by
  intro d
  induction d with
  | zero =>
    intro i calls delays heq hfail herr
    have hi : (i : ℤ) < N := by push_cast at heq; omega
    have hieq : (i : ℤ) = N - 1 := by push_cast at heq; omega
    obtain ⟨f, hf⟩ : ∃ f, (N - i).toNat = f + 1 := ⟨(N - i).toNat - 1, by omega⟩
    rw [hf]
    simp only [retryLoop, if_pos hi]
    rw [show i + 0 = i from rfl] at herr
    rw [herr]
    simp only [if_pos hieq]
    rfl
  | succ d ih =>
    intro i calls delays heq hfail herr
    have hi : (i : ℤ) < N := by push_cast at heq; omega
    have hne : ¬((i : ℤ) = N - 1) := by push_cast at heq; omega
    obtain ⟨e2, he2⟩ := hfail i le_rfl (by omega)
    obtain ⟨f, hf⟩ : ∃ f, (N - i).toNat = f + 1 := ⟨(N - i).toNat - 1, by omega⟩
    rw [hf]
    simp only [retryLoop, if_pos hi]
    rw [he2]
    simp only [if_neg hne]
    have harg : f = (N - ((i + 1 : Nat) : ℤ)).toNat := by push_cast; omega
    rw [harg]
    have hrec := ih (i + 1) (calls + 1) (delays + 1)
      (by push_cast; push_cast at heq; omega)
      (fun j h1 h2 => hfail j (by omega) (by omega))
      (by rw [show i + 1 + d = i + (d + 1) from by omega]; exact herr)
    rw [hrec, show calls + 1 + d + 1 = calls + (d + 1) + 1 from by omega,
      show delays + 1 + d = delays + (d + 1) from by omega]

/-- Claim C7: with `maxAttempts = N ≥ 1`, the retry wrapper returns the
operation's result on the first success, having invoked it `k+1` times and
delayed `k` times when the first `k` invocations failed; and after `N`
consecutive failures it propagates the `N`-th (last) failure, with `N - 1`
delays. -/
theorem C7_retry_wrapper (E A : Type) (op : Nat → Except E A) (N : Nat)
    (hN : 1 ≤ N) :
    (∀ (k : Nat) (a : A), k < N → (∀ j, j < k → ∃ e, op j = .error e) →
       op k = .ok a →
       retryOperation op (N : ℤ) = ⟨.ok a, k + 1, k⟩) ∧
    (∀ e : E, (∀ j, j < N - 1 → ∃ e2, op j = .error e2) →
       op (N - 1) = .error e →
       retryOperation op (N : ℤ) = ⟨.opError e, N, N - 1⟩) := by
  constructor
  · intro k a hk hfail hok
    have h := retryLoop_ok_at op (N : ℤ) a k 0 0 0
      (by push_cast; omega) (fun j h1 h2 => hfail j (by omega))
      (by simpa using hok)
    unfold retryOperation
    rw [show ((N : ℤ)).toNat = ((N : ℤ) - ((0 : Nat) : ℤ)).toNat from by push_cast; omega]
    rw [h, show 0 + k + 1 = k + 1 from by omega, show 0 + k = k from by omega]
  · intro e hfail herr
    have h := retryLoop_err_at op (N : ℤ) e (N - 1) 0 0 0
      (by push_cast; omega) (fun j h1 h2 => hfail j (by omega))
      (by simpa using herr)
    unfold retryOperation
    rw [show ((N : ℤ)).toNat = ((N : ℤ) - ((0 : Nat) : ℤ)).toNat from by push_cast; omega]
    rw [h, show 0 + (N - 1) + 1 = N from by omega, show 0 + (N - 1) = N - 1 from by omega]

/-- Witness for C7 (the spec's §8 instance, `N = 3`): an operation failing
twice then succeeding returns the success with 3 invocations and exactly 2
delays; one failing 3 times propagates the final failure. -/
theorem C7_retry_wrapper_witness :
    retryOperation (fun n => if n < 2 then Except.error () else Except.ok (42 : Nat)) 3 =
      ⟨.ok 42, 3, 2⟩ ∧
    retryOperation (fun n => (Except.error n : Except Nat Unit)) 3 =
      ⟨.opError 2, 3, 2⟩ := by
  constructor
  · exact (C7_retry_wrapper Unit Nat _ 3 (by omega)).1 2 42 (by omega)
      (fun j hj => ⟨(), by interval_cases j <;> rfl⟩) rfl
  · exact (C7_retry_wrapper Nat Unit _ 3 (by omega)).2 2
      (fun j hj => ⟨j, rfl⟩) rfl

/-- Claim C10: with a non-positive `maxRetries`, the loop body never runs —
the operation is never invoked (0 calls) and the generic
`'Max retries exceeded'` error is thrown instead of any operation failure. -/
theorem C10_retry_nonpositive (E A : Type) (op : Nat → Except E A) (m : ℤ)
    (hm : m ≤ 0) :
    retryOperation op m = ⟨.maxRetriesExceeded, 0, 0⟩ := by
  unfold retryOperation
  rw [show m.toNat = 0 from by omega]
  rfl

/-- Witness for C10 at `maxRetries = 0`. -/
theorem C10_retry_nonpositive_witness :
    retryOperation (fun _ => (Except.ok 7 : Except String Nat)) 0 =
      ⟨.maxRetriesExceeded, 0, 0⟩ :=
  C10_retry_nonpositive String Nat _ 0 (by norm_num)

/-- Claim C5: the issuer extraction operates on the first 15 lines of the
document text and tries the six strategies strictly in order — (1) brand
token optionally followed by a legal-entity suffix, (2) whole uppercase line
of length ≥ 10, (3) a brand token alone, (4) generic corporate keywords,
(5) within the first 5 lines a standalone uppercase run of length 4–25,
(6) a brand token anywhere in the entire text — each strategy scanned across
its lines (first matching line wins) before the next is tried, returning the
first hit, and the sentinel `"EMPRESA NO IDENTIFICADA"` when none matches. -/
theorem C5_issuer_strategy_order (text : String) :
    (∀ r, strategyFull ((splitLines text.data).take 15) = some r →
      extractCompanyName text = r) ∧
    (strategyFull ((splitLines text.data).take 15) = none →
      ∀ r, strategyLinePat ((splitLines text.data).take 15) = some r →
        extractCompanyName text = r) ∧
    (strategyFull ((splitLines text.data).take 15) = none →
      strategyLinePat ((splitLines text.data).take 15) = none →
      ∀ r, strategySpecific ((splitLines text.data).take 15) = some r →
        extractCompanyName text = r) ∧
    (strategyFull ((splitLines text.data).take 15) = none →
      strategyLinePat ((splitLines text.data).take 15) = none →
      strategySpecific ((splitLines text.data).take 15) = none →
      ∀ r, strategyKnown ((splitLines text.data).take 15) = some r →
        extractCompanyName text = r) ∧
    (strategyFull ((splitLines text.data).take 15) = none →
      strategyLinePat ((splitLines text.data).take 15) = none →
      strategySpecific ((splitLines text.data).take 15) = none →
      strategyKnown ((splitLines text.data).take 15) = none →
      ∀ r, strategyUpperRun ((splitLines text.data).take 15) = some r →
        extractCompanyName text = r) ∧
    (strategyFull ((splitLines text.data).take 15) = none →
      strategyLinePat ((splitLines text.data).take 15) = none →
      strategySpecific ((splitLines text.data).take 15) = none →
      strategyKnown ((splitLines text.data).take 15) = none →
      strategyUpperRun ((splitLines text.data).take 15) = none →
      ∀ r, strategyGlobal text.data = some r →
        extractCompanyName text = r) ∧
    (strategyFull ((splitLines text.data).take 15) = none →
      strategyLinePat ((splitLines text.data).take 15) = none →
      strategySpecific ((splitLines text.data).take 15) = none →
      strategyKnown ((splitLines text.data).take 15) = none →
      strategyUpperRun ((splitLines text.data).take 15) = none →
      strategyGlobal text.data = none →
      extractCompanyName text = "EMPRESA NO IDENTIFICADA") := by
  refine ⟨?_, ?_, ?_, ?_, ?_, ?_, ?_⟩ <;>
    · intros
      simp_all [extractCompanyName]

/-- Witness for C5: on the empty document every strategy misses and the
sentinel is returned. -/
theorem C5_issuer_strategy_order_witness :
    extractCompanyName "" = "EMPRESA NO IDENTIFICADA" :=
  (C5_issuer_strategy_order "").2.2.2.2.2.2 (by decide) (by decide) (by decide)
    (by decide) (by decide) (by decide)

/-- Claim C2 (code defect): when the extraction returns its sentinel
`"EMPRESA NO IDENTIFICADA"`, the record assembler is supposed to derive the
issuer from the sender/subject fallback chain, but the guard in
`processEmail` compares `parsedData.domicilioEntrega` against the
amount/city sentinel `'No especificada'` — a value `extractCompanyName`
never produces — so the fallback (`extractClientName`) is unreachable: at
the failing input below the assembled issuer is the extraction sentinel
itself although the fallback chain would produce `"John Doe"`. -/
theorem C2_issuer_fallback_unreachable :
    extractCompanyName "" = "EMPRESA NO IDENTIFICADA" ∧
    assembledIssuer "" "John Doe <john@x.com>" "test" = "EMPRESA NO IDENTIFICADA" ∧
    extractClientName "John Doe <john@x.com>" "test" = "John Doe" ∧
    ("EMPRESA NO IDENTIFICADA" : String) ≠ "John Doe" :=
  ⟨by decide, by decide, by decide, by decide⟩

/-- Claim C3 counterexample: on the spec's example subject the city
extraction returns `"Solicitud"` — the capitalized-word-before-hyphen
pattern (b) matches `"Solicitud"` at position 0 before the gazetteer pattern
could see `"Tabasco"` — so the claimed city `"Tabasco"` is wrong. -/
theorem C3_city_counterexample :
    extractCityFromSubject "Solicitud - Recurso Tabasco $1,500.00 - entrega" =
      "Solicitud" ∧
    ("Solicitud" : String) ≠ "Tabasco" :=
  ⟨by decide, by decide⟩

/-- Claim C3 as amended: the subject
`"Solicitud - Recurso Tabasco $1,500.00 - entrega"` yields amount
`"1500.00"` (pattern (a), currency-symbol-prefixed number, first match wins,
commas stripped) and city `"Solicitud"` (pattern (b), the first pattern to
match). -/
theorem C3_subject_extraction_amended :
    extractAmountFromSubject "Solicitud - Recurso Tabasco $1,500.00 - entrega" =
      "1500.00" ∧
    extractCityFromSubject "Solicitud - Recurso Tabasco $1,500.00 - entrega" =
      "Solicitud" :=
  ⟨by decide, by decide⟩

/-! ## Helper lemmas for batch isolation and the seen set -/

theorem foldl_processAttachment_all_fail (env : PipelineEnv) (e : ProcessedEmail) :
    ∀ (l : List GmailAttachment) (ws : Ledger),
      (∀ att ∈ l, ∃ msg, env.fetchText e.messageId att.attachmentId = .error msg) →
      l.foldl (processAttachment env e) ws = ws := by
  intro l
  induction l with
  | nil => intro ws _; rfl
  | cons a l ih =>
    intro ws h
    obtain ⟨msg, hmsg⟩ := h a (by simp)
    rw [List.foldl_cons, show processAttachment env e ws a = ws from by
      simp [processAttachment, hmsg]]
    exact ih ws (fun att hh => h att (by simp [hh]))

/-- Claim C8: a failure while processing one attachment or one message does
not abort the rest of the batch — a message all of whose downloads fail
leaves the ledger untouched, the batch fold always continues with the next
message, and in the concrete 3-message batch where message m2's download
fails the ledger still receives the rows of m1 and m3. -/
theorem C8_batch_isolation :
    (∀ (env : PipelineEnv) (e : ProcessedEmail) (ws : Ledger),
       (∀ att ∈ sortAttachments e.attachments,
          ∃ msg, env.fetchText e.messageId att.attachmentId = .error msg) →
       processEmail env e ws = ws) ∧
    (∀ (env : PipelineEnv) (e : ProcessedEmail) (es : List ProcessedEmail)
       (ws : Ledger),
       processBatch env (e :: es) ws = processBatch env es (processEmail env e ws)) ∧
    (processBatch sampleEnv
        [sampleEmail "m1", sampleEmail "m2", sampleEmail "m3"] []).map
      Row.messageId = ["m1", "m3"] := by
  refine ⟨?_, ?_, ?_⟩
  · intro env e ws h
    exact foldl_processAttachment_all_fail env e (sortAttachments e.attachments) ws h
  · intro env e es ws
    rfl
  · decide

/-- Witness for C8: in the sample environment every download of message m2
fails, and processing it leaves the (empty) ledger unchanged. -/
theorem C8_batch_isolation_witness :
    processEmail sampleEnv (sampleEmail "m2") [] = [] :=
  C8_batch_isolation.1 sampleEnv (sampleEmail "m2") []
    (fun _ _ => ⟨"download failed", rfl⟩)

theorem cfnLoop_acc_ids (env : WatcherEnv) :
    ∀ (ids seen : List String) (acc : List ProcessedEmail),
      (∀ pe ∈ acc, pe.messageId ∈ seen) →
      ∀ pe ∈ (cfnLoop env ids seen acc).1,
        pe.messageId ∈ (cfnLoop env ids seen acc).2 := by
  intro ids
  induction ids with
  | nil =>
    intro seen acc hacc pe hpe
    exact hacc pe hpe
  | cons id rest ih =>
    intro seen acc hacc pe hpe
    by_cases h : id ∈ seen
    · simp only [cfnLoop, if_pos h] at hpe ⊢
      exact ih seen acc hacc pe hpe
    · cases hd : env.details id with
      | some d =>
        simp only [cfnLoop, if_neg h, hd] at hpe ⊢
        refine ih (id :: seen) (acc ++ [detailsToEmail id d]) ?_ pe hpe
        intro pe2 hpe2
        rcases List.mem_append.mp hpe2 with h1 | h2
        · exact List.mem_cons_of_mem _ (hacc pe2 h1)
        · have : pe2 = detailsToEmail id d := by simpa using h2
          subst this
          simp [detailsToEmail]
      | none =>
        simp only [cfnLoop, if_neg h, hd] at hpe ⊢
        exact ih seen acc hacc pe hpe

theorem cfnLoop_fresh (env : WatcherEnv) :
    ∀ (ids seen : List String) (acc : List ProcessedEmail),
      ∀ pe ∈ (cfnLoop env ids seen acc).1, pe ∈ acc ∨ pe.messageId ∉ seen := by
  intro ids
  induction ids with
  | nil =>
    intro seen acc pe hpe
    exact Or.inl hpe
  | cons id rest ih =>
    intro seen acc pe hpe
    by_cases h : id ∈ seen
    · simp only [cfnLoop, if_pos h] at hpe
      exact ih seen acc pe hpe
    · cases hd : env.details id with
      | some d =>
        simp only [cfnLoop, if_neg h, hd] at hpe
        rcases ih (id :: seen) (acc ++ [detailsToEmail id d]) pe hpe with h1 | h2
        · rcases List.mem_append.mp h1 with ha | hb
          · exact Or.inl ha
          · have : pe = detailsToEmail id d := by simpa using hb
            subst this
            exact Or.inr (by simpa [detailsToEmail] using h)
        · exact Or.inr (fun hc => h2 (List.mem_cons_of_mem _ hc))
      | none =>
        simp only [cfnLoop, if_neg h, hd] at hpe
        exact ih seen acc pe hpe

/-- Claim C9: `checkForNewMessages` records a message's id in the in-process
seen set at the moment its details are fetched — before the caller performs
any download, extraction or ledger append for it — so every message of the
returned batch has its id in the updated set, and no later call of
`checkForNewMessages` in the same run returns it again (nothing ever removes
ids from the set), regardless of whether its subsequent processing fails. -/
theorem C9_seen_before_processing (env : WatcherEnv) (seen : List String) :
    (∀ pe ∈ (checkForNewMessages env seen).1,
       pe.messageId ∈ (checkForNewMessages env seen).2) ∧
    (∀ pe ∈ (checkForNewMessages env seen).1,
       ∀ pe2 ∈ (checkForNewMessages env ((checkForNewMessages env seen).2)).1,
         pe2.messageId ≠ pe.messageId) := by
  constructor
  · intro pe hpe
    exact cfnLoop_acc_ids env env.messageIds seen [] (by simp) pe hpe
  · intro pe hpe pe2 hpe2
    have h1 : pe.messageId ∈ (checkForNewMessages env seen).2 :=
      cfnLoop_acc_ids env env.messageIds seen [] (by simp) pe hpe
    have h2 := cfnLoop_fresh env env.messageIds
      ((checkForNewMessages env seen).2) [] pe2 hpe2
    rcases h2 with h2 | h2
    · simp at h2
    · intro hc
      rw [hc] at h2
      exact h2 h1

/-- Witness for C9 on a one-message environment: the returned message's id
is in the updated seen set. -/
theorem C9_seen_before_processing_witness :
    "m1" ∈ (checkForNewMessages ⟨["m1"], fun _ => some ⟨"s", "x", ⟨1, 0⟩, []⟩⟩ []).2 :=
  (C9_seen_before_processing ⟨["m1"], fun _ => some ⟨"s", "x", ⟨1, 0⟩, []⟩⟩ []).1
    (detailsToEmail "m1" ⟨"s", "x", ⟨1, 0⟩, []⟩) (by decide)
